import Mathlib

/-!
Shallow embedding of the room registry in `src/src/chat/chat.gateway.ts`
(the `ChatGateway` class of the piggy-server repository).

The gateway keeps two JavaScript `Map`s, `rooms : Map<string, Room>` and
`users : Map<string, User[]>`, and mutates them in the handlers
`createRoom`, `joinRoom`, `deleteRoom`, `sendMessage`, `leaveRoom`,
`handleDisconnect` and `triggerFetchAvailableRooms`.  JavaScript `Map`s are
modelled as association lists in insertion order with the usual `Map`
operations (`has`, `get`, `set`, `delete`, `values`); `Date.now()` becomes
an explicit natural-number timestamp argument to `createRoom`; every
outbound socket call (`client.emit`, `client.to(room).emit`,
`server.to(room).emit`, `server.emit`, `client.join`) becomes an `Emit`
value appended to the operation's emission trace.
-/

set_option autoImplicit false

namespace PiggyServer

/-- `Room` record of the source: `{ roomId: string; roomName: string }`. -/
structure Room where
  roomId : String
  roomName : String
  deriving DecidableEq, Repr

/-- `User` record of the source: `{ userId: string; userName: string; roomId: string }`.
`userId` is the socket.io connection identity (`client.id`). -/
structure User where
  userId : String
  userName : String
  roomId : String
  deriving DecidableEq, Repr

/-- Payloads carried by outbound events, one constructor per payload shape
appearing in the source. `newMessage` mirrors the object literal
`{ userId: userName, message }`: its first field is the `userId` key, whose
value is the sender's display name. -/
inductive Payload where
  | room (r : Room)
  | roomList (rs : List Room)
  | str (s : String)
  | userList (us : List User)
  | newMessage (userId : String) (message : String)
  | roomDeleted (message : String)
  deriving DecidableEq, Repr

/-- One outbound transport effect.  `toClient` is `client.emit` (unicast to
the requester), `toRoomExcept` is `client.to(roomId).emit` (room group minus
the requester), `toRoom` is `server.to(roomId).emit` (whole room group,
requester included), `toAll` is `server.emit` (every connected client), and
`joinGroup` is `client.join(roomId)`. -/
inductive Emit where
  | toClient (cid : String) (event : String) (p : Payload)
  | toRoomExcept (cid : String) (roomId : String) (event : String) (p : Payload)
  | toRoom (roomId : String) (event : String) (p : Payload)
  | toAll (event : String) (p : Payload)
  | joinGroup (cid : String) (roomId : String)
  deriving DecidableEq, Repr

/-- `Map.has k` on an association list. -/
def mapHas {α : Type} : List (String × α) → String → Bool
  | [], _ => false
  | p :: rest, k => if p.1 == k then true else mapHas rest k

/-- `Map.get k` on an association list (first entry with the key). -/
def mapGet {α : Type} : List (String × α) → String → Option α
  | [], _ => none
  | p :: rest, k => if p.1 == k then some p.2 else mapGet rest k

/-- `Map.set k v` on an association list: replace an existing entry in
place, preserving insertion order, else append at the end. -/
def mapSet {α : Type} : List (String × α) → String → α → List (String × α)
  | [], k, v => [(k, v)]
  | p :: rest, k, v => if p.1 == k then (k, v) :: rest else p :: mapSet rest k v

/-- `Map.delete k` on an association list: drop the entry with the key. -/
def mapDelete {α : Type} : List (String × α) → String → List (String × α)
  | [], _ => []
  | p :: rest, k => if p.1 == k then rest else p :: mapDelete rest k

/-- `Array.from(m.values())` on an association list. -/
def mapValues {α : Type} (m : List (String × α)) : List α :=
  m.map (fun p => p.2)

/-- The registry state of `ChatGateway`: `private rooms` and
`private users` (the `groupMessages` field is never initialised nor used
and is omitted). -/
structure ChatState where
  rooms : List (String × Room)
  users : List (String × List User)
  deriving DecidableEq, Repr

/-- The state built by the constructor: both maps empty. -/
def initState : ChatState := ⟨[], []⟩

/-- The roomId generated by `createRoom`: the template literal
`room${Date.now()}` with `Date.now()` passed in as `now`. -/
def genRoomId (now : Nat) : String :=
  "room" ++ toString now

/-- `createRoom` handler. -/
def createRoom (now : Nat) (roomName : String) (cid : String) (s : ChatState) :
    ChatState × List Emit :=
  let roomId := genRoomId now
  let room : Room := ⟨roomId, roomName⟩
  let rooms1 := mapSet s.rooms roomId room
  ({ s with rooms := rooms1 },
   [Emit.joinGroup cid roomId,
    Emit.toClient cid "roomCreated" (Payload.room room),
    Emit.toAll "rooms" (Payload.roomList (mapValues rooms1))])

/-- `joinRoom` handler. -/
def joinRoom (userName roomId cid : String) (s : ChatState) :
    ChatState × List Emit :=
  if !(mapHas s.rooms roomId) then
    (s, [Emit.toClient cid "error"
          (Payload.str ("Room " ++ roomId ++ " does not exist"))])
  else
    let usersInRoom := (mapGet s.users roomId).getD []
    let userExists := usersInRoom.any (fun u => u.userName == userName)
    if userExists then
      (s, [Emit.toClient cid "error"
            (Payload.str ("User " ++ userName ++ " already exists in room " ++ roomId))])
    else
      let user : User := ⟨cid, userName, roomId⟩
      let updated := usersInRoom ++ [user]
      ({ s with users := mapSet s.users roomId updated },
       [Emit.joinGroup cid roomId,
        Emit.toClient cid "joinedRoom"
          (Payload.str ("Successfully joined room: " ++ roomId)),
        Emit.toRoomExcept cid roomId "userJoined"
          (Payload.str (userName ++ " has joined the room")),
        Emit.toRoom roomId "totalUsers" (Payload.userList updated)])

/-- `deleteRoom` handler. -/
def deleteRoom (roomId cid : String) (s : ChatState) : ChatState × List Emit :=
  if !(mapHas s.rooms roomId) then
    (s, [Emit.toClient cid "error"
          (Payload.str ("Room " ++ roomId ++ " does not exist"))])
  else
    let rooms1 := mapDelete s.rooms roomId
    (⟨rooms1, mapDelete s.users roomId⟩,
     [Emit.toRoom roomId "roomDeleted"
        (Payload.roomDeleted ("Room " ++ roomId ++ " has been deleted.")),
      Emit.toAll "rooms" (Payload.roomList (mapValues rooms1))])

/-- `sendMessage` handler. -/
def sendMessage (userName roomId message cid : String) (s : ChatState) :
    ChatState × List Emit :=
  if !(mapHas s.rooms roomId) then
    (s, [Emit.toClient cid "error"
          (Payload.str ("Room " ++ roomId ++ " does not exist"))])
  else
    (s, [Emit.toRoom roomId "newMessage" (Payload.newMessage userName message)])

/-- `leaveRoom` handler.  The stored list is `usersInRoom.filter(u => u.userId !== client.id)`,
but the `totalUsers` broadcast sends `usersInRoom`, the pre-removal list. -/
def leaveRoom (roomId userName cid : String) (s : ChatState) :
    ChatState × List Emit :=
  if !(mapHas s.rooms roomId) then
    (s, [Emit.toClient cid "error"
          (Payload.str ("Room " ++ roomId ++ " does not exist"))])
  else
    let usersInRoom := (mapGet s.users roomId).getD []
    let updatedUsers := usersInRoom.filter (fun u => u.userId != cid)
    ({ s with users := mapSet s.users roomId updatedUsers },
     [Emit.toRoomExcept cid roomId "userLeft"
        (Payload.str (userName ++ " has left the room")),
      Emit.toRoom roomId "totalUsers" (Payload.userList usersInRoom)])

/-- The `users.forEach` loop of `handleDisconnect`: filter each room's list;
a non-empty result is stored back and broadcast, an empty result deletes the
room's `users` entry.  Deleting or overwriting the current entry during a
JavaScript `Map.forEach` is safe and leaves the iteration order intact, so
the loop is a single pass over the entries in insertion order. -/
def sweep (cid : String) : List (String × List User) →
    List (String × List User) × List Emit
  | [] => ([], [])
  | p :: rest =>
    let updated := p.2.filter (fun u => u.userId != cid)
    let r := sweep cid rest
    if updated.isEmpty then r
    else ((p.1, updated) :: r.1,
          Emit.toRoom p.1 "totalUsers" (Payload.userList updated) :: r.2)

/-- `handleDisconnect` handler: sweeps `users`, never touches `rooms`. -/
def handleDisconnect (cid : String) (s : ChatState) : ChatState × List Emit :=
  let r := sweep cid s.users
  ({ s with users := r.1 }, r.2)

/-- `triggerFetchAvailableRooms` handler. -/
def fetchRooms (s : ChatState) : ChatState × List Emit :=
  (s, [Emit.toAll "getRooms" (Payload.roomList (mapValues s.rooms))])

/-- One inbound event, with its payload and the requester's connection id
(`create` additionally carries the `Date.now()` timestamp). -/
inductive Op where
  | create (now : Nat) (roomName : String) (cid : String)
  | join (userName roomId cid : String)
  | leave (roomId userName cid : String)
  | send (userName roomId message cid : String)
  | delete (roomId cid : String)
  | disconnect (cid : String)
  | fetch
  deriving DecidableEq, Repr

/-- Dispatch one inbound event to its handler. -/
def applyOp (s : ChatState) : Op → ChatState × List Emit
  | Op.create now roomName cid => createRoom now roomName cid s
  | Op.join userName roomId cid => joinRoom userName roomId cid s
  | Op.leave roomId userName cid => leaveRoom roomId userName cid s
  | Op.send userName roomId message cid => sendMessage userName roomId message cid s
  | Op.delete roomId cid => deleteRoom roomId cid s
  | Op.disconnect cid => handleDisconnect cid s
  | Op.fetch => fetchRooms s

/-- Run a sequence of events from a given state, keeping only the state. -/
def runFrom (s : ChatState) (ops : List Op) : ChatState :=
  ops.foldl (fun t op => (applyOp t op).1) s

/-- Run a sequence of events from the freshly constructed gateway. -/
def run (ops : List Op) : ChatState :=
  runFrom initState ops

/-!
General lemmas about the association-list model of JavaScript `Map`s.
-/

section MapLemmas

variable {α : Type}

theorem mapGet_mem {m : List (String × α)} {k : String} {v : α}
    (h : mapGet m k = some v) : (k, v) ∈ m := by
  induction m with
  | nil => simp [mapGet] at h
  | cons q rest ih =>
    by_cases hq : q.1 = k
    · simp only [mapGet, hq, beq_self_eq_true, if_true, Option.some_inj] at h
      have hqv : q = (k, v) := by
        cases q
        simp_all
      exact hqv ▸ List.mem_cons_self _ _
    · have hb : (q.1 == k) = false := by simp [hq]
      simp only [mapGet, hb, Bool.false_eq_true, if_false] at h
      exact List.mem_cons_of_mem _ (ih h)

theorem mem_mapSet {m : List (String × α)} {k : String} {v : α} {p : String × α}
    (h : p ∈ mapSet m k v) : p = (k, v) ∨ p ∈ m := by
  induction m with
  | nil => simp [mapSet] at h; exact Or.inl h
  | cons q rest ih =>
    by_cases hq : q.1 = k
    · simp only [mapSet, hq, beq_self_eq_true, if_true, List.mem_cons] at h
      rcases h with h | h
      · exact Or.inl h
      · exact Or.inr (List.mem_cons_of_mem _ h)
    · have hb : (q.1 == k) = false := by simp [hq]
      simp only [mapSet, hb, Bool.false_eq_true, if_false, List.mem_cons] at h
      rcases h with h | h
      · exact Or.inr (h ▸ List.mem_cons_self _ _)
      · rcases ih h with h2 | h2
        · exact Or.inl h2
        · exact Or.inr (List.mem_cons_of_mem _ h2)

theorem mem_mapDelete {m : List (String × α)} {k : String} {p : String × α}
    (h : p ∈ mapDelete m k) : p ∈ m := by
  induction m with
  | nil => simp [mapDelete] at h
  | cons q rest ih =>
    by_cases hq : q.1 = k
    · simp only [mapDelete, hq, beq_self_eq_true, if_true] at h
      exact List.mem_cons_of_mem _ h
    · have hb : (q.1 == k) = false := by simp [hq]
      simp only [mapDelete, hb, Bool.false_eq_true, if_false, List.mem_cons] at h
      rcases h with h | h
      · exact h ▸ List.mem_cons_self _ _
      · exact List.mem_cons_of_mem _ (ih h)

theorem mapGet_mapSet_self (m : List (String × α)) (k : String) (v : α) :
    mapGet (mapSet m k v) k = some v := by
  induction m with
  | nil => simp [mapSet, mapGet]
  | cons q rest ih =>
    by_cases hq : q.1 = k
    · simp [mapSet, hq, mapGet]
    · have hb : (q.1 == k) = false := by simp [hq]
      simp only [mapSet, hb, Bool.false_eq_true, if_false, mapGet]
      exact ih

theorem mapGet_mapDelete_ne (m : List (String × α)) {k k' : String} (hk : k' ≠ k) :
    mapGet (mapDelete m k) k' = mapGet m k' := by
  induction m with
  | nil => simp [mapDelete]
  | cons q rest ih =>
    by_cases hq : q.1 = k
    · have hq' : ¬q.1 = k' := fun hc => hk (hc ▸ hq)
      have hb : (q.1 == k') = false := by simp [hq']
      have hb0 : (q.1 == k) = true := by simp [hq]
      simp [mapDelete, hb0, mapGet, hb]
    · have hb : (q.1 == k) = false := by simp [hq]
      by_cases hq' : q.1 = k'
      · have hb' : (q.1 == k') = true := by simp [hq']
        simp [mapDelete, hb, mapGet, hb']
      · have hb' : (q.1 == k') = false := by simp [hq']
        simp only [mapDelete, hb, Bool.false_eq_true, if_false, mapGet, hb']
        exact ih

theorem mapHas_eq_false_of_not_mem {m : List (String × α)} {k : String}
    (h : k ∉ m.map Prod.fst) : mapHas m k = false := by
  induction m with
  | nil => simp [mapHas]
  | cons q rest ih =>
    simp only [List.map_cons, List.mem_cons] at h
    push_neg at h
    have hb : (q.1 == k) = false := by
      simp only [beq_eq_false_iff_ne, ne_eq]
      exact fun hc => h.1 hc.symm
    simp only [mapHas, hb, Bool.false_eq_true, if_false]
    exact ih h.2

theorem mapHas_mapDelete_self {m : List (String × α)} {k : String}
    (hnd : (m.map Prod.fst).Nodup) : mapHas (mapDelete m k) k = false := by
  induction m with
  | nil => simp [mapDelete, mapHas]
  | cons q rest ih =>
    simp only [List.map_cons, List.nodup_cons] at hnd
    by_cases hq : q.1 = k
    · simp only [mapDelete, hq, beq_self_eq_true, if_true]
      exact mapHas_eq_false_of_not_mem (hq ▸ hnd.1)
    · have hb : (q.1 == k) = false := by simp [hq]
      simp only [mapDelete, hb, Bool.false_eq_true, if_false, mapHas]
      exact ih hnd.2

end MapLemmas

/-- The disconnect sweep in closed form: each room's list is filtered by
connection identity, the rooms whose filtered list is empty are dropped, and
one `totalUsers` broadcast is emitted per surviving room, in map order. -/
theorem sweep_eq (cid : String) (m : List (String × List User)) :
    sweep cid m =
      ((m.map (fun p => (p.1, p.2.filter (fun u => u.userId != cid)))).filter
         (fun p => !p.2.isEmpty),
       ((m.map (fun p => (p.1, p.2.filter (fun u => u.userId != cid)))).filter
          (fun p => !p.2.isEmpty)).map
         (fun p => Emit.toRoom p.1 "totalUsers" (Payload.userList p.2))) := by
  induction m with
  | nil => simp [sweep]
  | cons q rest ih =>
    by_cases hemp : (q.2.filter (fun u => u.userId != cid)).isEmpty = true
    · simp [sweep, hemp, ih]
    · simp [sweep, hemp, ih, Bool.not_eq_true]

/-- Display names are pairwise distinct within one member list. -/
def nameDistinct (l : List User) : Prop :=
  l.Pairwise (fun a b => a.userName ≠ b.userName)

/-- The name-uniqueness invariant: every member list stored in `users` has
pairwise-distinct display names. -/
def usersInv (s : ChatState) : Prop :=
  ∀ p ∈ s.users, nameDistinct p.2

theorem nameDistinct_filter {l : List User} (q : User → Bool)
    (h : nameDistinct l) : nameDistinct (l.filter q) :=
  List.Pairwise.sublist (List.filter_sublist l) h

theorem nameDistinct_getD {s : ChatState} (roomId : String) (h : usersInv s) :
    nameDistinct ((mapGet s.users roomId).getD []) := by
  cases hg : mapGet s.users roomId with
  | none => simp [nameDistinct]
  | some l => simpa using h (roomId, l) (mapGet_mem hg)

theorem usersInv_applyOp {s : ChatState} (op : Op) (h : usersInv s) :
    usersInv (applyOp s op).1 := by
  cases op with
  | create now roomName cid =>
    intro p hp
    exact h p hp
  | join userName roomId cid =>
    by_cases h1 : mapHas s.rooms roomId = true
    · by_cases h2 : ((mapGet s.users roomId).getD []).any
          (fun u => u.userName == userName) = true
      · simp only [applyOp, joinRoom, h1, Bool.not_true, Bool.false_eq_true,
          if_false, h2, if_true]
        exact h
      · simp only [applyOp, joinRoom, h1, Bool.not_true, Bool.false_eq_true,
          if_false, eq_false_of_ne_true h2]
        intro p hp
        rcases mem_mapSet hp with hnew | hold
        · have hd : nameDistinct ((mapGet s.users roomId).getD []) :=
            nameDistinct_getD roomId h
          have hfresh : ∀ a ∈ (mapGet s.users roomId).getD [],
              a.userName ≠ userName := by
            intro a ha hc
            exact h2 (List.any_eq_true.mpr ⟨a, ha, by simp [hc]⟩)
          subst hnew
          simp only [nameDistinct, List.pairwise_append]
          exact ⟨hd, List.pairwise_singleton _ _,
            fun a ha b hb => by
              simp only [List.mem_singleton] at hb
              subst hb
              exact hfresh a ha⟩
        · exact h p hold
    · simp only [applyOp, joinRoom, eq_false_of_ne_true h1, Bool.not_false,
        if_true]
      exact h
  | leave roomId userName cid =>
    by_cases h1 : mapHas s.rooms roomId = true
    · simp only [applyOp, leaveRoom, h1, Bool.not_true, Bool.false_eq_true,
        if_false]
      intro p hp
      rcases mem_mapSet hp with hnew | hold
      · subst hnew
        exact nameDistinct_filter _ (nameDistinct_getD roomId h)
      · exact h p hold
    · simp only [applyOp, leaveRoom, eq_false_of_ne_true h1, Bool.not_false,
        if_true]
      exact h
  | send userName roomId message cid =>
    by_cases h1 : mapHas s.rooms roomId = true
    · simp only [applyOp, sendMessage, h1, Bool.not_true, Bool.false_eq_true,
        if_false]
      exact h
    · simp only [applyOp, sendMessage, eq_false_of_ne_true h1, Bool.not_false,
        if_true]
      exact h
  | delete roomId cid =>
    by_cases h1 : mapHas s.rooms roomId = true
    · simp only [applyOp, deleteRoom, h1, Bool.not_true, Bool.false_eq_true,
        if_false]
      intro p hp
      exact h p (mem_mapDelete hp)
    · simp only [applyOp, deleteRoom, eq_false_of_ne_true h1, Bool.not_false,
        if_true]
      exact h
  | disconnect cid =>
    simp only [applyOp, handleDisconnect, sweep_eq]
    intro p hp
    have hp1 := List.mem_of_mem_filter hp
    rcases List.mem_map.mp hp1 with ⟨q, hq, hpq⟩
    subst hpq
    exact nameDistinct_filter _ (h q hq)
  | fetch =>
    intro p hp
    exact h p hp

theorem usersInv_runFrom {s : ChatState} (ops : List Op) (h : usersInv s) :
    usersInv (runFrom s ops) := by
  induction ops generalizing s with
  | nil => exact h
  | cons op rest ih => exact ih (usersInv_applyOp op h)

theorem usersInv_initState : usersInv initState := by
  intro p hp
  simp [initState] at hp

/-- C1: the claim that every generated RoomId is distinct from all earlier
ones fails on the code.  `createRoom` computes the id from the wall clock
alone (`room` + `Date.now()`), so two calls that observe the same timestamp
generate the same RoomId, and the second `rooms.set` overwrites the first
room: after CreateRoom("Lobby") and CreateRoom("Den") both at timestamp 0,
the registry holds a single room, the surviving metadata being "Den". -/
theorem C1_wall_clock_roomId_collision :
    genRoomId 0 = "room0"
    ∧ (run [Op.create 0 "Lobby" "A", Op.create 0 "Den" "B"]).rooms =
        [("room0", ⟨"room0", "Den"⟩)] :=
  ⟨rfl, rfl⟩

/-- C2: every failing operation — JoinRoom, LeaveRoom, SendMessage or
DeleteRoom on an absent roomId, or JoinRoom with a display name already in
the room — returns the registry state unchanged (both maps) and emits
exactly one private `error` event to the requester. -/
theorem C2_failed_ops_only_private_error (s : ChatState)
    (roomId userName message cid : String) :
    (mapHas s.rooms roomId = false →
      joinRoom userName roomId cid s =
        (s, [Emit.toClient cid "error"
              (Payload.str ("Room " ++ roomId ++ " does not exist"))]) ∧
      leaveRoom roomId userName cid s =
        (s, [Emit.toClient cid "error"
              (Payload.str ("Room " ++ roomId ++ " does not exist"))]) ∧
      sendMessage userName roomId message cid s =
        (s, [Emit.toClient cid "error"
              (Payload.str ("Room " ++ roomId ++ " does not exist"))]) ∧
      deleteRoom roomId cid s =
        (s, [Emit.toClient cid "error"
              (Payload.str ("Room " ++ roomId ++ " does not exist"))]))
    ∧ (mapHas s.rooms roomId = true →
       ((mapGet s.users roomId).getD []).any (fun u => u.userName == userName) = true →
        joinRoom userName roomId cid s =
          (s, [Emit.toClient cid "error"
                (Payload.str ("User " ++ userName ++ " already exists in room " ++ roomId))])) := by
  constructor
  · intro h1
    refine ⟨?_, ?_, ?_, ?_⟩ <;>
      simp [joinRoom, leaveRoom, sendMessage, deleteRoom, h1]
  · intro h1 h2
    simp [joinRoom, h1, h2]

/-- Witness for C2 at concrete inputs: JoinRoom on the missing room "r" of
the empty registry, and JoinRoom with the taken name "bob". -/
theorem C2_witness :
    joinRoom "alice" "r" "A" ⟨[], []⟩ =
      (⟨[], []⟩, [Emit.toClient "A" "error"
        (Payload.str ("Room " ++ "r" ++ " does not exist"))])
    ∧ joinRoom "bob" "r" "B" ⟨[("r", ⟨"r", "Room"⟩)], [("r", [⟨"A", "bob", "r"⟩])]⟩ =
        (⟨[("r", ⟨"r", "Room"⟩)], [("r", [⟨"A", "bob", "r"⟩])]⟩,
         [Emit.toClient "B" "error"
           (Payload.str ("User " ++ "bob" ++ " already exists in room " ++ "r"))]) :=
  ⟨((C2_failed_ops_only_private_error ⟨[], []⟩ "r" "alice" "m" "A").1 (by decide)).1,
   (C2_failed_ops_only_private_error
      ⟨[("r", ⟨"r", "Room"⟩)], [("r", [⟨"A", "bob", "r"⟩])]⟩ "r" "bob" "m" "B").2
     (by decide) (by decide)⟩

/-- C3: in every state reachable from the empty registry by any sequence of
operations, the display names within one room's stored member list are
pairwise distinct. -/
theorem C3_reachable_names_pairwise_distinct (ops : List Op) (rid : String)
    (l : List User) (h : mapGet (run ops).users rid = some l) :
    l.Pairwise (fun a b => a.userName ≠ b.userName) :=
  usersInv_runFrom ops usersInv_initState (rid, l) (mapGet_mem h)

/-- Witness for C3 on the run CreateRoom; JoinRoom("alice"); JoinRoom("bob"). -/
theorem C3_witness :
    List.Pairwise (fun a b : User => a.userName ≠ b.userName)
      [⟨"A", "alice", "room0"⟩, ⟨"B", "bob", "room0"⟩] :=
  C3_reachable_names_pairwise_distinct
    [Op.create 0 "Lobby" "A", Op.join "alice" "room0" "A", Op.join "bob" "room0" "B"]
    "room0" [⟨"A", "alice", "room0"⟩, ⟨"B", "bob", "room0"⟩] (by decide)

/-- C4: a successful JoinRoom (room present, display name fresh) stores for
the target room exactly the old list with one Member appended, whose
connection identity is the requester's: the length grows by one and the new
list contains a Member with the requester's connection identity. -/
theorem C4_join_success_appends_member (s : ChatState) (userName roomId cid : String)
    (h1 : mapHas s.rooms roomId = true)
    (h2 : ((mapGet s.users roomId).getD []).any (fun u => u.userName == userName) = false) :
    mapGet (joinRoom userName roomId cid s).1.users roomId =
      some ((mapGet s.users roomId).getD [] ++ [⟨cid, userName, roomId⟩])
    ∧ ((mapGet s.users roomId).getD [] ++ [(⟨cid, userName, roomId⟩ : User)]).length =
        ((mapGet s.users roomId).getD []).length + 1
    ∧ ∃ u ∈ (mapGet s.users roomId).getD [] ++ [(⟨cid, userName, roomId⟩ : User)],
        u.userId = cid := by
  refine ⟨?_, by simp, ⟨⟨cid, userName, roomId⟩, by simp, rfl⟩⟩
  simp only [joinRoom, h1, Bool.not_true, Bool.false_eq_true, if_false, h2]
  exact mapGet_mapSet_self s.users roomId _

/-- Witness for C4: connection "A" joins the fresh room "r" as "alice". -/
theorem C4_witness :
    mapGet (joinRoom "alice" "r" "A" ⟨[("r", ⟨"r", "Room"⟩)], []⟩).1.users "r" =
      some [⟨"A", "alice", "r"⟩] :=
  (C4_join_success_appends_member ⟨[("r", ⟨"r", "Room"⟩)], []⟩ "alice" "r" "A"
    (by decide) (by decide)).1

theorem length_filter_userId_split (cid : String) (l : List User) :
    l.length = (l.filter (fun u => u.userId != cid)).length +
      l.countP (fun u => u.userId == cid) := by
  induction l with
  | nil => simp
  | cons a rest ih =>
    by_cases hp : a.userId = cid
    · have hb : (a.userId == cid) = true := by simp [hp]
      have hbn : (a.userId != cid) = false := by simp [bne, hb]
      simp only [List.filter_cons, List.countP_cons, hb, hbn,
        Bool.false_eq_true, if_false, if_true, List.length_cons]
      omega
    · have hb : (a.userId == cid) = false := by simp [hp]
      have hbn : (a.userId != cid) = true := by simp [bne, hb]
      simp only [List.filter_cons, List.countP_cons, hb, hbn,
        Bool.false_eq_true, if_false, if_true, List.length_cons]
      omega

/-- C5 counterexample: LeaveRoom can remove two Members in one call.  In the
room "r" the connection "A" appears twice (as "alice" and as "bob", a state
reachable per the duplicate-connection behaviour of JoinRoom); the pre-call
list has length 2, and LeaveRoom by "A" stores the empty list, removing both
Members, not at most one. -/
theorem C5_counterexample_two_members_removed :
    ((mapGet (⟨[("r", ⟨"r", "Room"⟩)],
        [("r", [⟨"A", "alice", "r"⟩, ⟨"A", "bob", "r"⟩])]⟩ : ChatState).users
        "r").getD []).length = 2
    ∧ mapGet (leaveRoom "r" "alice" "A"
        ⟨[("r", ⟨"r", "Room"⟩)],
         [("r", [⟨"A", "alice", "r"⟩, ⟨"A", "bob", "r"⟩])]⟩).1.users "r" =
        some [] := by
  decide

/-- C5 (amended): LeaveRoom on an existing room removes exactly the Members
whose connection identity matches the requester's — the stored list is the
prior list filtered by that identity — so when the requester's identity
occurs at most once in the list, at most one Member is removed. -/
theorem C5_leave_removes_exactly_matching (s : ChatState)
    (roomId userName cid : String) (h : mapHas s.rooms roomId = true) :
    mapGet (leaveRoom roomId userName cid s).1.users roomId =
      some (((mapGet s.users roomId).getD []).filter (fun u => u.userId != cid))
    ∧ (((mapGet s.users roomId).getD []).countP (fun u => u.userId == cid) ≤ 1 →
        ((mapGet s.users roomId).getD []).length ≤
          (((mapGet s.users roomId).getD []).filter
            (fun u => u.userId != cid)).length + 1) := by
  constructor
  · simp only [leaveRoom, h, Bool.not_true, Bool.false_eq_true, if_false]
    exact mapGet_mapSet_self s.users roomId _
  · intro hcount
    have hsplit := length_filter_userId_split cid ((mapGet s.users roomId).getD [])
    omega

/-- Witness for C5 (amended): "A" leaves a room it occupies once; exactly
its Member is removed and "B"'s Member survives. -/
theorem C5_witness :
    mapGet (leaveRoom "r" "alice" "A"
      ⟨[("r", ⟨"r", "Room"⟩)],
       [("r", [⟨"A", "alice", "r"⟩, ⟨"B", "bob", "r"⟩])]⟩).1.users "r" =
      some [⟨"B", "bob", "r"⟩] :=
  (C5_leave_removes_exactly_matching
    ⟨[("r", ⟨"r", "Room"⟩)], [("r", [⟨"A", "alice", "r"⟩, ⟨"B", "bob", "r"⟩])]⟩
    "r" "alice" "A" (by decide)).1

/-- C6: LeaveRoom on an existing room stores the post-removal list in
`users` but broadcasts the pre-removal snapshot as `totalUsers` to the
room's group. -/
theorem C6_leave_broadcasts_pre_removal_list (s : ChatState)
    (roomId userName cid : String) (h : mapHas s.rooms roomId = true) :
    leaveRoom roomId userName cid s =
      ({ s with users := (mapSet s.users roomId
             (((mapGet s.users roomId).getD []).filter (fun u => u.userId != cid))) },
       [Emit.toRoomExcept cid roomId "userLeft"
          (Payload.str (userName ++ " has left the room")),
        Emit.toRoom roomId "totalUsers"
          (Payload.userList ((mapGet s.users roomId).getD []))]) := by
  simp only [leaveRoom, h, Bool.not_true, Bool.false_eq_true, if_false]

/-- Witness for C6: "A" leaves; the stored list keeps only "B", while the
`totalUsers` broadcast still carries both Members. -/
theorem C6_witness :
    leaveRoom "r" "alice" "A"
      ⟨[("r", ⟨"r", "Room"⟩)],
       [("r", [⟨"A", "alice", "r"⟩, ⟨"B", "bob", "r"⟩])]⟩ =
      (⟨[("r", ⟨"r", "Room"⟩)], [("r", [⟨"B", "bob", "r"⟩])]⟩,
       [Emit.toRoomExcept "A" "r" "userLeft"
          (Payload.str ("alice" ++ " has left the room")),
        Emit.toRoom "r" "totalUsers"
          (Payload.userList [⟨"A", "alice", "r"⟩, ⟨"B", "bob", "r"⟩])]) :=
  C6_leave_broadcasts_pre_removal_list
    ⟨[("r", ⟨"r", "Room"⟩)], [("r", [⟨"A", "alice", "r"⟩, ⟨"B", "bob", "r"⟩])]⟩
    "r" "alice" "A" (by decide)

/-- C7: DisconnectSweep filters exactly the disconnecting connection's
Members out of every room's list: rooms whose filtered list is non-empty
keep the filtered list and get a `totalUsers` broadcast, rooms whose
filtered list is empty are dropped from `users`, and `rooms` is untouched. -/
theorem C7_disconnect_sweep_filters_all_rooms (cid : String) (s : ChatState) :
    handleDisconnect cid s =
      (⟨s.rooms,
        (s.users.map (fun p => (p.1, p.2.filter (fun u => u.userId != cid)))).filter
          (fun p => !p.2.isEmpty)⟩,
       ((s.users.map (fun p => (p.1, p.2.filter (fun u => u.userId != cid)))).filter
          (fun p => !p.2.isEmpty)).map
         (fun p => Emit.toRoom p.1 "totalUsers" (Payload.userList p.2))) := by
  simp only [handleDisconnect, sweep_eq]

/-- C8: DeleteRoom on an existing room first broadcasts the room-deleted
notice to the room's group, and the single resulting state has the roomId
removed from both `rooms` and `users`; every other key's lookup in either
map is unchanged.  The `Nodup` hypotheses are the `Map` representation
invariant (JavaScript `Map` keys are unique). -/
theorem C8_delete_room_removes_both_maps (s : ChatState) (roomId cid : String)
    (h : mapHas s.rooms roomId = true)
    (hr : (s.rooms.map Prod.fst).Nodup) (hu : (s.users.map Prod.fst).Nodup) :
    deleteRoom roomId cid s =
      (⟨mapDelete s.rooms roomId, mapDelete s.users roomId⟩,
       [Emit.toRoom roomId "roomDeleted"
          (Payload.roomDeleted ("Room " ++ roomId ++ " has been deleted.")),
        Emit.toAll "rooms"
          (Payload.roomList (mapValues (mapDelete s.rooms roomId)))])
    ∧ mapHas (mapDelete s.rooms roomId) roomId = false
    ∧ mapHas (mapDelete s.users roomId) roomId = false
    ∧ (∀ k, k ≠ roomId →
        mapGet (mapDelete s.rooms roomId) k = mapGet s.rooms k ∧
        mapGet (mapDelete s.users roomId) k = mapGet s.users k) := by
  refine ⟨?_, mapHas_mapDelete_self hr, mapHas_mapDelete_self hu, ?_⟩
  · simp only [deleteRoom, h, Bool.not_true, Bool.false_eq_true, if_false]
  · intro k hk
    exact ⟨mapGet_mapDelete_ne s.rooms hk, mapGet_mapDelete_ne s.users hk⟩

/-- Witness for C8: deleting "r1" from a two-room registry removes it from
both maps and leaves "r2" readable in both. -/
theorem C8_witness :
    mapHas (mapDelete [("r1", (⟨"r1", "One"⟩ : Room)), ("r2", ⟨"r2", "Two"⟩)]
        "r1") "r1" = false
    ∧ mapGet (mapDelete [("r1", (⟨"r1", "One"⟩ : Room)), ("r2", ⟨"r2", "Two"⟩)]
        "r1") "r2" =
      mapGet [("r1", (⟨"r1", "One"⟩ : Room)), ("r2", ⟨"r2", "Two"⟩)] "r2" :=
  ⟨(C8_delete_room_removes_both_maps
      ⟨[("r1", ⟨"r1", "One"⟩), ("r2", ⟨"r2", "Two"⟩)],
       [("r1", [⟨"A", "alice", "r1"⟩]), ("r2", [⟨"B", "bob", "r2"⟩])]⟩
      "r1" "A" (by decide) (by decide) (by decide)).2.1,
   ((C8_delete_room_removes_both_maps
      ⟨[("r1", ⟨"r1", "One"⟩), ("r2", ⟨"r2", "Two"⟩)],
       [("r1", [⟨"A", "alice", "r1"⟩]), ("r2", [⟨"B", "bob", "r2"⟩])]⟩
      "r1" "A" (by decide) (by decide) (by decide)).2.2.2 "r2"
      (by decide)).1⟩

/-- C9: SendMessage on an existing room leaves the registry state unchanged
and its entire effect is one `newMessage` broadcast to the whole room group
(sender included), carrying the sender's display name and the message (the
payload's JSON key for the display name is spelled `userId` in the code). -/
theorem C9_send_message_single_broadcast (s : ChatState)
    (userName roomId message cid : String) (h : mapHas s.rooms roomId = true) :
    sendMessage userName roomId message cid s =
      (s, [Emit.toRoom roomId "newMessage"
            (Payload.newMessage userName message)]) := by
  simp only [sendMessage, h, Bool.not_true, Bool.false_eq_true, if_false]

/-- Witness for C9: a concrete send to the one-room registry. -/
theorem C9_witness :
    sendMessage "alice" "r" "hi" "A"
      ⟨[("r", ⟨"r", "Room"⟩)], [("r", [⟨"A", "alice", "r"⟩])]⟩ =
      (⟨[("r", ⟨"r", "Room"⟩)], [("r", [⟨"A", "alice", "r"⟩])]⟩,
       [Emit.toRoom "r" "newMessage" (Payload.newMessage "alice" "hi")]) :=
  C9_send_message_single_broadcast
    ⟨[("r", ⟨"r", "Room"⟩)], [("r", [⟨"A", "alice", "r"⟩])]⟩
    "alice" "r" "hi" "A" (by decide)

/-- C10: JoinRoom deduplicates display names only, not connection
identities: after CreateRoom at timestamp 0 and two joins by the same
connection "A" under the names "alice" and "bob", room "room0" stores two
Members whose connection identity is "A". -/
theorem C10_duplicate_connection_in_room :
    mapGet (run [Op.create 0 "Lobby" "A", Op.join "alice" "room0" "A",
        Op.join "bob" "room0" "A"]).users "room0" =
      some [⟨"A", "alice", "room0"⟩, ⟨"A", "bob", "room0"⟩]
    ∧ ((mapGet (run [Op.create 0 "Lobby" "A", Op.join "alice" "room0" "A",
        Op.join "bob" "room0" "A"]).users "room0").getD []).countP
        (fun u => u.userId == "A") = 2 := by
  decide

end PiggyServer
